import Mathlib

/-!
Verification of the haystack document renderer (src/main.rs).

Strings are modelled as `List Char` (`Str`), matching Rust's `&str` viewed as a
character sequence.  Every definition below is translated from the Rust source;
external collaborators (the pulldown-cmark parser, the syntect highlighting
engine and theme data, the HTML serializer, the filesystem) are passed in as
explicit parameters or modelled as the fixed data the library ships, as noted
at each definition.
-/

set_option maxRecDepth 20000

abbrev Str := List Char

def str (s : String) : Str := s.data

/-- Rust `str::split(c)`: splits on every occurrence of `c`, keeping empty pieces. -/
def splitOnChar (c : Char) : Str → List Str
  | [] => [[]]
  | x :: xs =>
    match splitOnChar c xs with
    | [] => [[]]
    | y :: ys => if x = c then [] :: y :: ys else (x :: y) :: ys

/-- Rust `str::split_once(c)`: parts around the first occurrence of `c`. -/
def splitOnceChar (c : Char) : Str → Option (Str × Str)
  | [] => none
  | x :: xs =>
    if x = c then some ([], xs)
    else (splitOnceChar c xs).map (fun p => (x :: p.1, p.2))

/-- Rust `Vec::join(sep)`. -/
def joinSep (sep : Str) : List Str → Str
  | [] => []
  | [x] => x
  | x :: y :: ys => x ++ sep ++ joinSep sep (y :: ys)

/-- Rust `str::trim_start()` (whitespace restricted to ASCII space/tab/CR/LF). -/
def leftTrim (l : Str) : Str := l.dropWhile Char.isWhitespace

/-- Right-hand part of Rust `str::trim()`. -/
def rightTrim (l : Str) : Str := (l.reverse.dropWhile Char.isWhitespace).reverse

/-- Rust `str::trim()`. -/
def trimStr (l : Str) : Str := rightTrim (leftTrim l)

/-- Rust `char::to_ascii_lowercase`. -/
def asciiLower (c : Char) : Char :=
  if 'A' ≤ c ∧ c ≤ 'Z' then Char.ofNat (c.toNat + 32) else c

/-- Rust `str::to_ascii_lowercase`. -/
def lowerStr (l : Str) : Str := l.map asciiLower

/-- Rust `char::is_ascii_alphanumeric`. -/
def isAsciiAlnum (c : Char) : Bool :=
  ('0' ≤ c ∧ c ≤ '9') ∨ ('a' ≤ c ∧ c ≤ 'z') ∨ ('A' ≤ c ∧ c ≤ 'Z')

/-- Rust `str::eq_ignore_ascii_case`. -/
def eqIgnoreAsciiCase (a b : Str) : Bool := lowerStr a = lowerStr b

/-- Rust `str::lines()`: split on newline, drop a final empty piece, strip a
trailing carriage return from each line. -/
def rustLines (s : Str) : List Str :=
  let parts := splitOnChar '\n' s
  let parts := if parts.getLast? = some [] then parts.dropLast else parts
  parts.map (fun l => if l.getLast? = some '\r' then l.dropLast else l)

/-! ## Title extraction for Org documents (src/main.rs `extract_title_from_org`) -/

/-- The `#+KEY: value` directive check on an already-trimmed line
(src/main.rs lines 374-382). -/
def orgDirectiveTitle (l : Str) : Option Str :=
  if (str "#+").isPrefixOf l then
    let rest := l.drop 2
    match splitOnceChar ':' rest with
    | some (key, val) =>
      if eqIgnoreAsciiCase key (str "title") ∧ trimStr val ≠ [] then
        some (trimStr val)
      else none
    | none => none
  else none

/-- The `* Heading` headline check on an already-trimmed line
(src/main.rs lines 384-393). -/
def orgHeadlineTitle (l : Str) : Option Str :=
  match l with
  | '*' :: stripped =>
    let after := stripped.dropWhile (· = '*')
    match after with
    | ' ' :: title => if trimStr title ≠ [] then some (trimStr title) else none
    | _ => none
  | _ => none

/-- One iteration of the line loop in `extract_title_from_org`: trim the line,
skip it when empty, try the directive, then the headline. -/
def orgLineTitle (raw : Str) : Option Str :=
  let l := trimStr raw
  if l = [] then none
  else
    match orgDirectiveTitle l with
    | some v => some v
    | none => orgHeadlineTitle l

def orgTitleOfLines : List Str → Option Str
  | [] => none
  | line :: rest =>
    match orgLineTitle line with
    | some v => some v
    | none => orgTitleOfLines rest

/-- src/main.rs `extract_title_from_org` (lines 369-396). -/
def extract_title_from_org (input : Str) : Option Str :=
  orgTitleOfLines (rustLines input)

/-! ## Theme resolution (src/main.rs `resolve_theme`, `normalize_name`, `syntax_css`) -/

/-- The keys of syntect's default theme registry (`ThemeSet::load_defaults()`),
in `BTreeMap` iteration order.  The registry is an external collaborator of the
program; a theme object is identified by its registry key (the `themes` map is
keyed by name, so equal keys mean the same theme object). -/
def THEME_KEYS : List Str :=
  [str "InspiredGitHub", str "Solarized (dark)", str "Solarized (light)",
   str "base16-eighties.dark", str "base16-mocha.dark",
   str "base16-ocean.dark", str "base16-ocean.light"]

/-- src/main.rs `normalize_name` (lines 585-590). -/
def normalize_name (s : Str) : Str := (s.filter isAsciiAlnum).map asciiLower

/-- The alias table of `resolve_theme` tier 4 (src/main.rs lines 574-581). -/
def themeAlias (lower : Str) : Option Str :=
  if lower = str "github" ∨ lower = str "inspiredgithub" then some (str "InspiredGitHub")
  else if lower = str "solarized-dark" ∨ lower = str "solarized(dark)" then some (str "Solarized (dark)")
  else if lower = str "solarized-light" ∨ lower = str "solarized(light)" then some (str "Solarized (light)")
  else if lower = str "ocean-dark" ∨ lower = str "base16-ocean-dark" then some (str "base16-ocean.dark")
  else if lower = str "ocean-light" ∨ lower = str "base16-ocean-light" then some (str "base16-ocean.light")
  else none

/-- src/main.rs `resolve_theme` (lines 546-583); a resolved theme is
represented by its registry key. -/
def resolve_theme (name : Option Str) : Option Str :=
  match name with
  | none => none
  | some n0 =>
    let n := trimStr n0
    if n = [] then none
    else if THEME_KEYS.contains n then some n
    else
      let lower := lowerStr n
      match THEME_KEYS.find? (fun k => lowerStr k = lower) with
      | some k => some k
      | none =>
        match THEME_KEYS.find? (fun k => normalize_name k = normalize_name n) with
        | some k => some k
        | none =>
          match themeAlias lower with
          | some a => if THEME_KEYS.contains a then some a else none
          | none => none

/-- The fallback of the light-theme selection in src/main.rs `syntax_css`
(lines 498-507): registry lookup of `InspiredGitHub`, else
`base16-ocean.light` (the `expect` cannot fire on the default registry). -/
def light_fallback_key : Str :=
  match THEME_KEYS.find? (fun k => k = str "InspiredGitHub") with
  | some k => k
  | none =>
    match THEME_KEYS.find? (fun k => k = str "base16-ocean.light") with
    | some k => k
    | none => []

/-- The fallback of the dark-theme selection in src/main.rs `syntax_css`
(lines 509-518). -/
def dark_fallback_key : Str :=
  match THEME_KEYS.find? (fun k => k = str "base16-ocean.dark") with
  | some k => k
  | none =>
    match THEME_KEYS.find? (fun k => k = str "Solarized (dark)") with
    | some k => k
    | none => []

/-- The light-theme selection of src/main.rs `syntax_css` (lines 498-507):
`resolve_theme` result, else the fixed fallback. -/
def light_theme_key (name : Option Str) : Str :=
  (resolve_theme name).getD light_fallback_key

/-- The dark-theme selection of src/main.rs `syntax_css` (lines 509-518). -/
def dark_theme_key (name : Option Str) : Str :=
  (resolve_theme name).getD dark_fallback_key

/-! ## CSS scoping (src/main.rs `scope_syntect_css`, lines 524-544) -/

/-- src/main.rs `scope_syntect_css`: split on the rule-closing brace, split each
chunk at its first opening brace (chunks without one are dropped), prefix each
trimmed non-empty selector with the scope, rejoin with `, `. -/
def scope_syntect_css (css : Str) (scope : Str) : Str :=
  ((splitOnChar '\x7d' css).map (fun chunk =>
    match splitOnceChar '\x7b' chunk with
    | none => []
    | some (selectors, body) =>
      joinSep (str ", ")
        ((((splitOnChar ',' selectors).map trimStr).filter (fun s => s ≠ [])).map
          (fun s => scope ++ ' ' :: s))
      ++ str "\x7b\n" ++ body ++ str "\x7d\n")).flatten

/-! ## Request resolution (src/main.rs `serve`, lines 143-198) -/

/-- The response outcomes of the `serve` loop body.  Filesystem reads are
modelled as total (a present file is readable), so the 500 branches of the
Rust code do not arise. -/
inductive HttpResp where
  | ok (contentType : Str) (body : Str)
  | notFound
  | badRequest
deriving DecidableEq

/-- URL preprocessing of the `serve` loop (src/main.rs lines 144-148): drop the
query string, strip leading slashes, default the empty path to `index.html`. -/
def processPath (url : Str) : Str :=
  let p0 := (splitOnChar '?' url).headD []
  let p1 := p0.dropWhile (· = '/')
  if p1 = [] then str "index.html" else p1

/-- The path-traversal guard (src/main.rs line 151): some `/`-separated segment
is `..` or contains a backslash. -/
def hasTraversal (p : Str) : Bool :=
  (splitOnChar '/' p).any (fun seg => seg = str ".." || seg.contains '\\')

/-- `&path[..path.len() - ".html".len()]` (src/main.rs line 158). -/
def htmlBase (p : Str) : Str := p.take (p.length - 5)

/-- The per-request body of src/main.rs `serve` (lines 143-198).  The source
directory's contents are the function `fs` (relative path to file content);
`renderMd`/`renderOrg` stand for `convert_markdown_to_html` /
`convert_org_to_html` applied to the configured theme, and `mimeOf` for
`mime_guess`. -/
def handle_request (fs : Str → Option Str) (renderMd renderOrg : Str → Str)
    (mimeOf : Str → Str) (url : Str) : HttpResp :=
  if hasTraversal (processPath url) then .badRequest
  else if (str ".html").isSuffixOf (processPath url) then
    match fs (htmlBase (processPath url) ++ str ".md") with
    | some content => .ok (str "text/html; charset=utf-8") (renderMd content)
    | none =>
      match fs (htmlBase (processPath url) ++ str ".org") with
      | some content => .ok (str "text/html; charset=utf-8") (renderOrg content)
      | none => .notFound
  else
    match fs (processPath url) with
    | some bytes => .ok (mimeOf (processPath url)) bytes
    | none => .notFound

/-! ## The Markdown event stream (pulldown-cmark, an external collaborator)

Only the constructors the renderer inspects are distinguished; every other
tag is `otherTag`. -/

inductive MdCodeBlockKind where
  | fenced (info : Str)
  | indented
deriving DecidableEq

inductive MdTag where
  | codeBlock (kind : MdCodeBlockKind)
  | heading
  | otherTag
deriving DecidableEq

inductive MdTagEnd where
  | codeBlock
  | heading
  | otherTag
deriving DecidableEq

inductive MdEvent where
  | start (t : MdTag)
  | stop (t : MdTagEnd)
  | text (s : Str)
  | code (s : Str)
  | htmlEv (s : Str)
deriving DecidableEq

/-- The fence info-string handling of src/main.rs lines 240-243:
`info.split_whitespace().next().unwrap_or("")`, empty mapped to `None`. -/
def langOfKind : MdCodeBlockKind → Option Str
  | .fenced info =>
    let tok := (info.dropWhile Char.isWhitespace).takeWhile (fun c => !c.isWhitespace)
    if tok = [] then none else some tok
  | .indented => none

/-- src/main.rs `highlight_code` (lines 601-614).  The syntax lookup and the
per-line `ClassedHTMLGenerator` pass are the syntect black box, abstracted as
`hl : code → language → inner html`; the wrapper shape is the code's own. -/
def highlight_code (hl : Str → Option Str → Str) (code : Str) (lang : Option Str) : Str :=
  str "<pre><code class=\"hl language-" ++ (lang.getD (str "text")) ++ str "\">"
    ++ hl code lang ++ str "</code></pre>"

/-- The event loop of src/main.rs `convert_markdown_to_html` (lines 229-262),
threaded through its three mutable state variables `in_code`, `code_lang`,
`code_buf`. -/
def transformEvents (hl : Str → Option Str → Str) :
    List MdEvent → Bool → Option Str → Str → List MdEvent
  | [], _, _, _ => []
  | .start (.codeBlock k) :: rest, _, _, _ =>
    transformEvents hl rest true (langOfKind k) []
  | .text t :: rest, true, lang, buf =>
    transformEvents hl rest true lang (buf ++ t)
  | .stop .codeBlock :: rest, _, lang, buf =>
    .htmlEv (highlight_code hl buf lang) :: transformEvents hl rest false none buf
  | e :: rest, inCode, lang, buf =>
    (if inCode then ([] : List MdEvent) else [e]) ++ transformEvents hl rest inCode lang buf

/-! ## Well-formed parser streams for the code-block claims

pulldown-cmark emits each code block as a start event, text events, and an end
event; a well-formed stream is a sequence of such blocks and other events. -/

inductive Seg where
  | plain (e : MdEvent)
  | block (k : MdCodeBlockKind) (texts : List Str)
deriving DecidableEq

def flattenSeg : Seg → List MdEvent
  | .plain e => [e]
  | .block k texts => .start (.codeBlock k) :: (texts.map .text ++ [.stop .codeBlock])

def flattenSegs (segs : List Seg) : List MdEvent := (segs.map flattenSeg).flatten

/-- A `plain` segment carries neither a code-block start nor a code-block end. -/
def WFseg : Seg → Bool
  | .plain (.start (.codeBlock _)) => false
  | .plain (.stop .codeBlock) => false
  | .plain _ => true
  | .block _ _ => true

def WFsegs (segs : List Seg) : Bool := segs.all WFseg

/-- The spec-side image of one segment under the transformation: plain events
pass through, each code block becomes exactly one raw-HTML event of the shape
the claim states. -/
def segOut (hl : Str → Option Str → Str) : Seg → List MdEvent
  | .plain e => [e]
  | .block k texts =>
    [.htmlEv (str "<pre><code class=\"hl language-"
      ++ ((langOfKind k).getD (str "text")) ++ str "\">"
      ++ hl texts.flatten (langOfKind k) ++ str "</code></pre>")]

/-! ## Title extraction for Markdown (src/main.rs `extract_title_from_markdown`) -/

/-- The accumulation step of src/main.rs lines 357-362: a space is pushed
between inline fragments when the accumulator is non-empty. -/
def joinAcc (t s : Str) : Str := if t = [] then s else t ++ ' ' :: s

/-- The event loop of src/main.rs `extract_title_from_markdown` (lines 345-365),
threaded through its state `in_heading` and `title`. -/
def extract_md_events : List MdEvent → Bool → Str → Option Str
  | [], _, _ => none
  | .start .heading :: rest, _, t => extract_md_events rest true t
  | .stop .heading :: rest, _, t =>
    if trimStr t ≠ [] then some (trimStr t) else extract_md_events rest false t
  | .text s :: rest, true, t => extract_md_events rest true (joinAcc t s)
  | .code s :: rest, true, t => extract_md_events rest true (joinAcc t s)
  | _ :: rest, inHeading, t => extract_md_events rest inHeading t

/-- src/main.rs `extract_title_from_markdown` (lines 336-367), over the event
stream the pulldown-cmark re-parse of the raw text produces. -/
def extract_title_from_markdown_events (events : List MdEvent) : Option Str :=
  extract_md_events events false []

/-- Well-formed parser streams for the title claim: a sequence of heading
blocks (whose content carries no heading start/end marker) and other events. -/
inductive MdItem where
  | hblock (content : List MdEvent)
  | misc (e : MdEvent)
deriving DecidableEq

def flattenItem : MdItem → List MdEvent
  | .hblock c => .start .heading :: (c ++ [.stop .heading])
  | .misc e => [e]

def flattenItems (items : List MdItem) : List MdEvent := (items.map flattenItem).flatten

def isHeadingMarker : MdEvent → Bool
  | .start .heading => true
  | .stop .heading => true
  | _ => false

def WFitem : MdItem → Bool
  | .hblock c => c.all (fun e => !isHeadingMarker e)
  | .misc e => !isHeadingMarker e

def WFitems (items : List MdItem) : Bool := items.all WFitem

/-- The inline fragments a heading contributes to the title: plain text and
inline-code spans, in order. -/
def headingTexts (c : List MdEvent) : List Str :=
  c.filterMap (fun e => match e with
    | .text s => some s
    | .code s => some s
    | _ => none)

/-- Specification-side title: the trimmed, space-joined inline text of the
first heading block whose joined text is non-empty after trimming; empty
headings are skipped; `none` when no heading block exists. -/
def specTitleItems : List MdItem → Option Str
  | [] => none
  | .hblock c :: rest =>
    let j := (headingTexts c).foldl joinAcc []
    if trimStr j ≠ [] then some (trimStr j) else specTitleItems rest
  | .misc _ :: rest => specTitleItems rest

/-! ## Lemmas about the code-block transformation -/

lemma flattenSegs_cons (s : Seg) (rest : List Seg) :
    flattenSegs (s :: rest) = flattenSeg s ++ flattenSegs rest := by
  simp [flattenSegs]

lemma transform_text_run (hl : Str → Option Str → Str) (ts : List Str)
    (R : List MdEvent) (lang : Option Str) (buf : Str) :
    transformEvents hl (ts.map .text ++ .stop .codeBlock :: R) true lang buf
      = .htmlEv (highlight_code hl (buf ++ ts.flatten) lang)
          :: transformEvents hl R false none (buf ++ ts.flatten) := by
  induction ts generalizing buf with
  | nil => simp [transformEvents]
  | cons t ts ih =>
    simpa [transformEvents, List.append_assoc] using ih (buf ++ t)

lemma transform_plain_step (hl : Str → Option Str → Str) (e : MdEvent)
    (R : List MdEvent) (lang : Option Str) (buf : Str)
    (h : WFseg (.plain e) = true) :
    transformEvents hl (e :: R) false lang buf = e :: transformEvents hl R false lang buf := by
  cases e with
  | start t =>
    cases t with
    | codeBlock k => simp [WFseg] at h
    | heading => simp [transformEvents]
    | otherTag => simp [transformEvents]
  | stop t =>
    cases t with
    | codeBlock => simp [WFseg] at h
    | heading => simp [transformEvents]
    | otherTag => simp [transformEvents]
  | text s => simp [transformEvents]
  | code s => simp [transformEvents]
  | htmlEv s => simp [transformEvents]

/-- Core lemma: on a well-formed stream the event loop of
`convert_markdown_to_html` maps each plain event to itself and each code block
to exactly one raw-HTML event, for any incoming buffer and language state. -/
lemma transform_flatten (hl : Str → Option Str → Str) (segs : List Seg)
    (lang : Option Str) (buf : Str) (h : WFsegs segs = true) :
    transformEvents hl (flattenSegs segs) false lang buf
      = (segs.map (segOut hl)).flatten := by
  induction segs generalizing lang buf with
  | nil => simp [flattenSegs, transformEvents]
  | cons s rest ih =>
    rw [WFsegs, List.all_cons, Bool.and_eq_true] at h
    have hs : WFseg s = true := h.1
    have hr : WFsegs rest = true := h.2
    cases s with
    | plain e =>
      rw [flattenSegs_cons]
      simp only [flattenSeg, List.singleton_append]
      rw [transform_plain_step hl e _ lang buf hs, ih lang buf hr]
      simp [segOut]
    | block k texts =>
      rw [flattenSegs_cons]
      simp only [flattenSeg, List.cons_append, List.append_assoc, List.singleton_append,
        List.nil_append]
      rw [show ∀ L, transformEvents hl (.start (.codeBlock k) :: L) false lang buf
            = transformEvents hl L true (langOfKind k) [] from fun L => by
          simp [transformEvents]]
      rw [transform_text_run hl texts (flattenSegs rest) (langOfKind k) []]
      simp only [List.nil_append]
      rw [ih none texts.flatten hr]
      simp [segOut, highlight_code]

/-! ## Lemmas about Markdown title extraction -/

lemma flattenItems_cons (it : MdItem) (rest : List MdItem) :
    flattenItems (it :: rest) = flattenItem it ++ flattenItems rest := by
  simp [flattenItems]

lemma extract_misc_step (e : MdEvent) (R : List MdEvent) (t : Str)
    (h : isHeadingMarker e = false) :
    extract_md_events (e :: R) false t = extract_md_events R false t := by
  cases e with
  | start tg => cases tg <;> simp_all [extract_md_events, isHeadingMarker]
  | stop tg => cases tg <;> simp_all [extract_md_events, isHeadingMarker]
  | text s => simp [extract_md_events]
  | code s => simp [extract_md_events]
  | htmlEv s => simp [extract_md_events]

lemma extract_heading_run (c : List MdEvent) (R : List MdEvent) (t : Str)
    (hc : c.all (fun e => !isHeadingMarker e) = true) :
    extract_md_events (c ++ .stop .heading :: R) true t
      = (if trimStr ((headingTexts c).foldl joinAcc t) ≠ []
         then some (trimStr ((headingTexts c).foldl joinAcc t))
         else extract_md_events R false ((headingTexts c).foldl joinAcc t)) := by
  induction c generalizing t with
  | nil => simp [extract_md_events, headingTexts]
  | cons e c ih =>
    rw [List.all_cons, Bool.and_eq_true] at hc
    have he : isHeadingMarker e = false := by
      cases hx : isHeadingMarker e
      · rfl
      · rw [hx] at hc; simp at hc
    have hc' := hc.2
    cases e with
    | start tg =>
      cases tg with
      | codeBlock k => simpa [extract_md_events, headingTexts] using ih t hc'
      | heading => simp [isHeadingMarker] at he
      | otherTag => simpa [extract_md_events, headingTexts] using ih t hc'
    | stop tg =>
      cases tg with
      | codeBlock => simpa [extract_md_events, headingTexts] using ih t hc'
      | heading => simp [isHeadingMarker] at he
      | otherTag => simpa [extract_md_events, headingTexts] using ih t hc'
    | text s => simpa [extract_md_events, headingTexts] using ih (joinAcc t s) hc'
    | code s => simpa [extract_md_events, headingTexts] using ih (joinAcc t s) hc'
    | htmlEv s => simpa [extract_md_events, headingTexts] using ih t hc'

lemma leftTrim_append_of_allWs (w x : Str) (h : ∀ c ∈ w, c.isWhitespace = true) :
    leftTrim (w ++ x) = leftTrim x := by
  simp [leftTrim, List.dropWhile_append_of_pos h]

lemma leftTrim_all_ws (t : Str) : ∀ c ∈ t.takeWhile Char.isWhitespace, c.isWhitespace = true :=
  fun _ hc => List.mem_takeWhile_imp hc

lemma leftTrim_joinAcc (t1 t2 s : Str) (h : leftTrim t1 = leftTrim t2) :
    leftTrim (joinAcc t1 s) = leftTrim (joinAcc t2 s) := by
  have key : ∀ u : Str, leftTrim u = leftTrim t1 →
      leftTrim (joinAcc u s) = (match leftTrim t1 with
        | [] => leftTrim s
        | a :: u' => a :: u' ++ ' ' :: s) := by
    intro u hu
    by_cases hnil : u = []
    · subst hnil
      have h0 : leftTrim t1 = [] := by rw [← hu]; rfl
      rw [h0]
      simp [joinAcc, leftTrim]
    · rw [joinAcc, if_neg hnil]
      have hdecomp : u.takeWhile Char.isWhitespace ++ u.dropWhile Char.isWhitespace = u :=
        List.takeWhile_append_dropWhile _ _
      cases hlt : leftTrim t1 with
      | nil =>
        have hu0 : u.dropWhile Char.isWhitespace = [] := by
          have : leftTrim u = [] := by rw [hu, hlt]
          simpa [leftTrim] using this
        have hall : ∀ c ∈ u, c.isWhitespace = true :=
          List.dropWhile_eq_nil_iff.mp hu0
        rw [leftTrim_append_of_allWs u (' ' :: s) hall]
        simp [leftTrim, List.dropWhile]
      | cons a u' =>
        have hu1 : u.dropWhile Char.isWhitespace = a :: u' := by
          have : leftTrim u = a :: u' := by rw [hu, hlt]
          simpa [leftTrim] using this
        have hna : a.isWhitespace = false := by
          have hne : u.dropWhile Char.isWhitespace ≠ [] := by simp [hu1]
          have := List.head_dropWhile_not Char.isWhitespace u hne
          rwa [show (u.dropWhile Char.isWhitespace).head hne = a from by simp [hu1]] at this
        calc leftTrim (u ++ ' ' :: s)
            = leftTrim ((u.takeWhile Char.isWhitespace ++ u.dropWhile Char.isWhitespace) ++ ' ' :: s) := by
              rw [hdecomp]
          _ = leftTrim (u.dropWhile Char.isWhitespace ++ ' ' :: s) := by
              rw [List.append_assoc]
              exact leftTrim_append_of_allWs _ _ (leftTrim_all_ws u)
          _ = a :: u' ++ ' ' :: s := by
              rw [hu1]; simp [leftTrim, List.dropWhile, hna]
  rw [key t1 rfl, key t2 h.symm]

lemma leftTrim_foldl (ss : List Str) (t1 t2 : Str) (h : leftTrim t1 = leftTrim t2) :
    leftTrim (ss.foldl joinAcc t1) = leftTrim (ss.foldl joinAcc t2) := by
  induction ss generalizing t1 t2 with
  | nil => exact h
  | cons s ss ih => exact ih _ _ (leftTrim_joinAcc _ _ _ h)

lemma trimStr_eq_of_leftTrim (t1 t2 : Str) (h : leftTrim t1 = leftTrim t2) :
    trimStr t1 = trimStr t2 := by
  rw [trimStr, trimStr, h]

lemma leftTrim_eq_nil_of_trim (t : Str) (h : trimStr t = []) : leftTrim t = [] := by
  cases hlt : leftTrim t with
  | nil => rfl
  | cons a u =>
    exfalso
    have hne : t.dropWhile Char.isWhitespace ≠ [] := by
      have : leftTrim t = a :: u := hlt
      simp [leftTrim] at this
      simp [this]
    have hna : Char.isWhitespace ((t.dropWhile Char.isWhitespace).head hne) = false :=
      List.head_dropWhile_not Char.isWhitespace t hne
    have hhead : (t.dropWhile Char.isWhitespace).head hne = a := by
      have : leftTrim t = a :: u := hlt
      simp [leftTrim] at this
      simp [this]
    rw [hhead] at hna
    have hrev : (leftTrim t).reverse.dropWhile Char.isWhitespace = [] := by
      have : trimStr t = [] := h
      rw [trimStr, rightTrim] at this
      simpa using this
    have hmem : a ∈ (leftTrim t).reverse := by simp [hlt]
    have := List.dropWhile_eq_nil_iff.mp hrev a hmem
    rw [this] at hna
    exact Bool.true_eq_false.mp hna

/-- Core lemma: on a well-formed stream, `extract_title_from_markdown`'s loop,
started with any whitespace-only leftover accumulator, returns the trimmed
joined text of the first heading whose trimmed text is non-empty. -/
lemma extract_items (items : List MdItem) (t : Str)
    (hWF : WFitems items = true) (ht : trimStr t = []) :
    extract_md_events (flattenItems items) false t = specTitleItems items := by
  induction items generalizing t with
  | nil => simp [flattenItems, extract_md_events, specTitleItems]
  | cons it rest ih =>
    rw [WFitems, List.all_cons, Bool.and_eq_true] at hWF
    have h1 : WFitem it = true := hWF.1
    have h2 : WFitems rest = true := hWF.2
    cases it with
    | misc e =>
      rw [flattenItems_cons]
      simp only [flattenItem, List.singleton_append]
      have he : isHeadingMarker e = false := by
        cases hx : isHeadingMarker e
        · rfl
        · rw [WFitem, hx] at h1; simp at h1
      rw [extract_misc_step e _ t he, ih t h2 ht]
      simp [specTitleItems]
    | hblock c =>
      rw [flattenItems_cons]
      simp only [flattenItem, List.cons_append, List.append_assoc, List.singleton_append,
        List.nil_append]
      rw [show ∀ L, extract_md_events (MdEvent.start MdTag.heading :: L) false t
            = extract_md_events L true t from fun L => by simp [extract_md_events]]
      rw [extract_heading_run c (flattenItems rest) t h1]
      have hlt : leftTrim ((headingTexts c).foldl joinAcc t)
          = leftTrim ((headingTexts c).foldl joinAcc []) :=
        leftTrim_foldl _ _ _ (by rw [leftTrim_eq_nil_of_trim t ht]; rfl)
      have htrim : trimStr ((headingTexts c).foldl joinAcc t)
          = trimStr ((headingTexts c).foldl joinAcc []) :=
        trimStr_eq_of_leftTrim _ _ hlt
      simp only [specTitleItems]
      rw [htrim]
      by_cases hcond : trimStr ((headingTexts c).foldl joinAcc []) = []
      · rw [if_neg (by simp [hcond]), if_neg (by simp [hcond])]
        exact ih _ h2 (htrim.trans hcond)
      · rw [if_pos hcond, if_pos hcond]

/-! ## Page assembly (src/main.rs `wrap_html_page`, `default_css`, lines 281-326, 398-492)

`ThemeConfig` is src/main.rs lines 52-56; `themeCss` abstracts syntect's
`css_for_theme_with_class_style` (theme key → stylesheet text), and
`headSnippet` is the state of the `theme/head.html` file that
`read_head_snippet` (lines 328-334) reads: `some` content when the file is
readable, `none` otherwise. -/

structure ThemeConfig where
  light : Option Str
  dark : Option Str
deriving DecidableEq

/-- src/main.rs `default_css` (lines 398-492), given line by line (the raw
string contains literal backslash-quote pairs around the font names); the
final empty line encodes the trailing newline of the Rust literal. -/
def default_css_lines : List Str :=
  [str ":root \x7b",
   str "  --fg: #222222;",
   str "  --bg: #f7f4e9; /* retro paper */",
   str "  --muted: #6b665e;",
   str "  --link: #2f6f6f; /* teal-ish retro */",
   str "  --border: #d9d4c7;",
   str "  --code-bg: #efe9d6;",
   str "  --shadow: rgba(0,0,0,0.04);",
   str "\x7d",
   str "[data-theme=\x27dark\x27] \x7b",
   str "  --fg: #e6e1cf;",
   str "  --bg: #0e0f13;",
   str "  --muted: #9a968a;",
   str "  --link: #7fd1b9;",
   str "  --border: #2a2c33;",
   str "  --code-bg: #151821;",
   str "  --shadow: rgba(0,0,0,0.25);",
   str "\x7d",
   str "@media (prefers-color-scheme: dark) \x7b",
   str "  [data-theme=\x27auto\x27] \x7b",
   str "    --fg: #e6e1cf;",
   str "    --bg: #0e0f13;",
   str "    --muted: #9a968a;",
   str "    --link: #7fd1b9;",
   str "    --border: #2a2c33;",
   str "    --code-bg: #151821;",
   str "    --shadow: rgba(0,0,0,0.25);",
   str "  \x7d",
   str "\x7d",
   str "html, body \x7b padding: 0; margin: 0; background: var(--bg); color: var(--fg); \x7d",
   str "body \x7b",
   str "  font-family: ui-serif, Georgia, Times, \\\"Noto Serif\\\", serif;",
   str "  font-size: 17px;",
   str "  line-height: 1.7;",
   str "  text-rendering: optimizeLegibility;",
   str "  -webkit-font-smoothing: antialiased;",
   str "  -moz-osx-font-smoothing: grayscale;",
   str "\x7d",
   str ".container \x7b max-width: 70ch; margin: 0 auto; padding: 28px 18px 48px; \x7d",
   str "",
   str ".theme-controls \x7b position: sticky; top: 0; display: flex; justify-content: flex-end; padding: 10px 18px 0; \x7d",
   str ".theme-controls button \x7b",
   str "  border: 1px solid var(--fg);",
   str "  background: transparent;",
   str "  color: var(--fg);",
   str "  border-radius: 999px;",
   str "  padding: 4px 10px;",
   str "  cursor: pointer;",
   str "  font-family: ui-monospace, SFMono-Regular, Menlo, Monaco, Consolas, \\\"Liberation Mono\\\", \\\"Courier New\\\", monospace;",
   str "  font-size: 0.9rem;",
   str "\x7d",
   str ".theme-controls button[data-mode=\x27auto\x27] \x7b",
   str "  border-style: dashed;",
   str "  letter-spacing: 0.06em;",
   str "\x7d",
   str ".theme-controls button:hover \x7b background: var(--code-bg); \x7d",
   str "",
   str "h1, h2, h3, h4, h5, h6 \x7b line-height: 1.2; margin: 1.6em 0 0.7em; font-weight: 700; letter-spacing: 0.02em; \x7d",
   str "h1 \x7b font-size: 2.1rem; \x7d",
   str "h2 \x7b font-size: 1.6rem; \x7d",
   str "h3 \x7b font-size: 1.25rem; \x7d",
   str "h4 \x7b font-size: 1.1rem; \x7d",
   str "p \x7b margin: 1em 0; \x7d",
   str "a \x7b color: var(--link); text-decoration: underline; text-decoration-thickness: 1px; text-underline-offset: 2px; text-decoration-skip-ink: auto; \x7d",
   str "a:hover \x7b opacity: 0.9; \x7d",
   str "::selection \x7b background: color-mix(in srgb, var(--link) 25%, transparent); \x7d",
   str "img, video \x7b max-width: 100%; height: auto; border-radius: 2px; box-shadow: 0 1px 0 var(--shadow); \x7d",
   str "hr \x7b border: 0; border-top: 1px dashed var(--border); margin: 2.2rem 0; \x7d",
   str "ul, ol \x7b padding-left: 1.2rem; \x7d",
   str "li \x7b margin: 0.35rem 0; \x7d",
   str "blockquote \x7b",
   str "  margin: 1.2rem 0; padding: 0.75rem 1rem; border-left: 3px solid var(--border);",
   str "  color: var(--muted); background: color-mix(in srgb, var(--code-bg) 65%, transparent);",
   str "  font-style: italic;",
   str "\x7d",
   str "code, pre \x7b",
   str "  font-family: ui-monospace, SFMono-Regular, Menlo, Monaco, Consolas, \\\"Liberation Mono\\\", \\\"Courier New\\\", monospace;",
   str "  font-size: 0.95em;",
   str "\x7d",
   str "pre \x7b",
   str "  background: var(--code-bg);",
   str "  padding: 0.9rem; border-radius: 6px; overflow: auto; border: 1px solid var(--border);",
   str "\x7d",
   str "code \x7b background: var(--code-bg); padding: 0.1rem 0.35rem; border-radius: 4px; \x7d",
   str "pre code \x7b padding: 0; background: transparent; \x7d",
   str "table \x7b width: 100%; border-collapse: collapse; margin: 1.2rem 0; \x7d",
   str "th, td \x7b padding: 0.5rem 0.6rem; border: 1px solid var(--border); text-align: left; \x7d",
   str "thead th \x7b background: color-mix(in srgb, var(--code-bg) 85%, transparent); \x7d",
   str "details \x7b border: 1px solid var(--border); border-radius: 6px; padding: 0.6rem 0.9rem; background: color-mix(in srgb, var(--code-bg) 75%, transparent); \x7d",
   str "summary \x7b cursor: pointer; font-weight: 600; \x7d",
   str "kbd \x7b font-family: inherit; background: var(--code-bg); border: 1px solid var(--border); border-bottom-width: 2px; padding: 0 0.35rem; border-radius: 4px; \x7d",
   str "@media (min-width: 900px) \x7b body \x7b font-size: 18px; \x7d .container \x7b padding: 36px 22px 56px; \x7d \x7d",
   str ""]

/-- Join with newline separators (no trailing separator). -/
def joinNl : List Str → Str
  | [] => []
  | [l] => l
  | l :: l2 :: rest => l ++ '\n' :: joinNl (l2 :: rest)

/-- src/main.rs `default_css` (lines 398-492). -/
def default_css : Str := joinNl default_css_lines

/-- src/main.rs lines 285-289 (raw string `theme_bootstrap`). -/
def theme_bootstrap : Str := str "(function()\x7b
  try \x7b
    document.documentElement.setAttribute(\x27data-theme\x27, localStorage.getItem(\x27haystack-theme\x27) || \x27auto\x27);
  \x7d catch(e) \x7b\x7d
\x7d)();"

/-- src/main.rs line 290 (raw string `controls_html`). -/
def controls_html : Str := str "<div class=\"theme-controls\"><button id=\"themeToggle\" aria-label=\"Toggle theme\">🌓</button></div>"

/-- src/main.rs lines 291-299 (raw string `toggle_script`). -/
def toggle_script : Str := str "(function()\x7b
  function setTheme(t)\x7b document.documentElement.setAttribute(\x27data-theme\x27, t); try\x7b localStorage.setItem(\x27haystack-theme\x27, t); \x7dcatch(e)\x7b\x7d \x7d
  const btn = document.getElementById(\x27themeToggle\x27);
  if(btn)\x7b btn.addEventListener(\x27click\x27, function()\x7b
    const cur = document.documentElement.getAttribute(\x27data-theme\x27)||\x27auto\x27;
    const next = (cur===\x27light\x27) ? \x27dark\x27 : (cur===\x27dark\x27 ? \x27auto\x27 : \x27light\x27);
    setTheme(next);
  \x7d); \x7d
\x7d)();"

/-- src/main.rs lines 308-321 (raw string `indicator_script`); the Rust raw
string carries literal backslash-u escape sequences. -/
def indicator_script : Str := str "(function()\x7b
  function render()\x7b
    var btn = document.getElementById(\x27themeToggle\x27); if(!btn) return;
    var mode = document.documentElement.getAttribute(\x27data-theme\x27)||\x27auto\x27;
    btn.setAttribute(\x27data-mode\x27, mode);
    var label = (mode===\x27light\x27?\x27Light\x27:(mode===\x27dark\x27?\x27Dark\x27:\x27Auto\x27));
    btn.setAttribute(\x27aria-label\x27, \x27Toggle theme (current: \x27+label+\x27)\x27);
    btn.title = \x27Theme: \x27+label+\x27 (click to switch)\x27;
    btn.textContent = (mode===\x27light\x27?\x27\\u2600\x27:(mode===\x27dark\x27?\x27\\u263D\x27:\x27A\x27));
  \x7d
  render();
  var btn = document.getElementById(\x27themeToggle\x27); if(btn)\x7b btn.addEventListener(\x27click\x27, function()\x7b setTimeout(render,0); \x7d); \x7d
  var obs = new MutationObserver(render); obs.observe(document.documentElement, \x7b attributes:true, attributeFilter:[\x27data-theme\x27]\x7d);
\x7d)();"

/-- src/main.rs line 306 (`wrap_overrides`). -/
def wrap_overrides : Str := str "\n/* Force code wrapping */\n.container pre, .container pre code, .container code.hl, .container pre .hl \x7b\n  white-space: pre-wrap;\n  overflow-wrap: anywhere;\n  word-break: break-word;\n\x7d\n"

def scopeLightSel : Str := str "html[data-theme=\x27light\x27]"

def scopeDarkSel : Str := str "html[data-theme=\x27dark\x27]"

def scopeAutoSel : Str := str "html[data-theme=\x27auto\x27]"

/-- src/main.rs line 301. -/
def syn_light_scoped (cfg : ThemeConfig) (themeCss : Str → Str) : Str :=
  scope_syntect_css (themeCss (light_theme_key cfg.light)) scopeLightSel

/-- src/main.rs line 302. -/
def syn_dark_scoped (cfg : ThemeConfig) (themeCss : Str → Str) : Str :=
  scope_syntect_css (themeCss (dark_theme_key cfg.dark)) scopeDarkSel

/-- src/main.rs line 303: the light syntax CSS for `auto` mode, wrapped in a
`prefers-color-scheme` media query. -/
def auto_light_block (cfg : ThemeConfig) (themeCss : Str → Str) : Str :=
  str "@media (prefers-color-scheme: light) \x7b\n"
    ++ scope_syntect_css (themeCss (light_theme_key cfg.light)) scopeAutoSel
    ++ str "\n\x7d"

/-- src/main.rs line 304. -/
def auto_dark_block (cfg : ThemeConfig) (themeCss : Str → Str) : Str :=
  str "@media (prefers-color-scheme: dark) \x7b\n"
    ++ scope_syntect_css (themeCss (dark_theme_key cfg.dark)) scopeAutoSel
    ++ str "\n\x7d"

/-- The content of the `<style>` element in the page template
(src/main.rs line 323, placeholders 3-8). -/
def style_content (cfg : ThemeConfig) (themeCss : Str → Str) : Str :=
  str "\n" ++ default_css ++ str "\n" ++ syn_light_scoped cfg themeCss ++ str "\n"
    ++ syn_dark_scoped cfg themeCss ++ str "\n" ++ auto_light_block cfg themeCss ++ str "\n"
    ++ auto_dark_block cfg themeCss ++ str "\n" ++ wrap_overrides ++ str "\n"

/-- src/main.rs `wrap_html_page` (lines 281-326). -/
def wrap_html_page (body : Str) (title : Option Str) (cfg : ThemeConfig)
    (themeCss : Str → Str) (headSnippet : Option Str) : Str :=
  str "<!DOCTYPE html>\n<html lang=\"en\">\n<head>\n<meta charset=\"utf-8\">\n<meta name=\"viewport\" content=\"width=device-width, initial-scale=1\">\n<title>"
    ++ title.getD (str "haystack")
    ++ str "</title>\n<script>" ++ theme_bootstrap
    ++ str "</script>\n<style>" ++ style_content cfg themeCss
    ++ str "</style>\n" ++ headSnippet.getD []
    ++ str "\n</head>\n<body>\n" ++ controls_html
    ++ str "\n<main class=\"container\">\n" ++ body
    ++ str "\n</main>\n<script>" ++ toggle_script
    ++ str "</script>\n<script>" ++ indicator_script
    ++ str "</script>\n</body>\n</html>"

/-- src/main.rs `convert_markdown_to_html` (lines 220-268): parse (external,
`parse`), transform the event stream, serialize (external, `pushHtml`),
extract the title from a re-parse of the raw input, and wrap the page. -/
def convert_markdown_to_html (parse : Str → List MdEvent) (pushHtml : List MdEvent → Str)
    (hl : Str → Option Str → Str) (input : Str) (cfg : ThemeConfig)
    (themeCss : Str → Str) (headSnippet : Option Str) : Str :=
  wrap_html_page (pushHtml (transformEvents hl (parse input) false none []))
    (extract_title_from_markdown_events (parse input)) cfg themeCss headSnippet

/-- Everything of the page before the head-injection snippet. -/
def wrapBeforeHead (title : Option Str) (cfg : ThemeConfig) (themeCss : Str → Str) : Str :=
  str "<!DOCTYPE html>\n<html lang=\"en\">\n<head>\n<meta charset=\"utf-8\">\n<meta name=\"viewport\" content=\"width=device-width, initial-scale=1\">\n<title>"
    ++ title.getD (str "haystack")
    ++ str "</title>\n<script>" ++ theme_bootstrap
    ++ str "</script>\n<style>" ++ style_content cfg themeCss
    ++ str "</style>\n"

/-- Everything of the page after the head-injection snippet. -/
def wrapAfterHead (body : Str) : Str :=
  str "\n</head>\n<body>\n" ++ controls_html
    ++ str "\n<main class=\"container\">\n" ++ body
    ++ str "\n</main>\n<script>" ++ toggle_script
    ++ str "</script>\n<script>" ++ indicator_script
    ++ str "</script>\n</body>\n</html>"

lemma wrap_html_page_decomp (body : Str) (title : Option Str) (cfg : ThemeConfig)
    (themeCss : Str → Str) (headSnippet : Option Str) :
    wrap_html_page body title cfg themeCss headSnippet
      = wrapBeforeHead title cfg themeCss ++ headSnippet.getD [] ++ wrapAfterHead body := by
  simp [wrap_html_page, wrapBeforeHead, wrapAfterHead, List.append_assoc]

/-! ## Occurrence counting (for the auto-mode CSS claim) -/

/-- Number of positions of `l` at which `pat` occurs as a contiguous substring. -/
def countOccur (pat : Str) : Str → Nat
  | [] => 0
  | c :: rest => (if pat.isPrefixOf (c :: rest) then 1 else 0) + countOccur pat rest

lemma isPrefixOf_append_newline (pat : Str) (A B : Str) (hnl : '\n' ∉ pat) :
    pat.isPrefixOf (A ++ '\n' :: B) = pat.isPrefixOf A := by
  induction pat generalizing A with
  | nil => simp [List.isPrefixOf]
  | cons p ps ih =>
    cases A with
    | nil =>
      have hp : (p == '\n') = false := by
        have h1 : p ≠ '\n' := fun h => hnl (by simp [h])
        simpa using h1
      simp [List.isPrefixOf, hp]
    | cons a A' =>
      have hps : '\n' ∉ ps := fun h => hnl (List.mem_cons_of_mem _ h)
      show (p == a && ps.isPrefixOf (A' ++ '\n' :: B)) = (p == a && ps.isPrefixOf A')
      rw [ih A' hps]

lemma countOccur_append_newline (pat : Str) (hne : pat ≠ []) (hnl : '\n' ∉ pat)
    (A B : Str) :
    countOccur pat (A ++ '\n' :: B) = countOccur pat A + countOccur pat B := by
  induction A with
  | nil =>
    cases pat with
    | nil => exact absurd rfl hne
    | cons p ps =>
      have hp : (p == '\n') = false := by
        have h1 : p ≠ '\n' := fun h => hnl (by simp [h])
        simpa using h1
      simp [countOccur, List.isPrefixOf, hp]
  | cons a A' ih =>
    have hpre := isPrefixOf_append_newline pat (a :: A') B hnl
    rw [List.cons_append] at hpre ⊢
    rw [countOccur, countOccur, hpre, ih]
    omega

lemma countOccur_newline_cons (pat : Str) (hne : pat ≠ []) (hnl : '\n' ∉ pat) (B : Str) :
    countOccur pat ('\n' :: B) = countOccur pat B := by
  have h := countOccur_append_newline pat hne hnl [] B
  simpa [countOccur] using h

lemma countOccur_joinNl (pat : Str) (hne : pat ≠ []) (hnl : '\n' ∉ pat)
    (lines : List Str) :
    countOccur pat (joinNl lines) = (lines.map (countOccur pat)).sum := by
  induction lines with
  | nil => simp [joinNl, countOccur]
  | cons l rest ih =>
    cases rest with
    | nil => simp [joinNl]
    | cons l2 rest2 =>
      rw [joinNl, countOccur_append_newline pat hne hnl, ih]
      simp

/-- Helper for the first-match behaviour of the Org title scan. -/
lemma orgTitleOfLines_first (ls : List Str) (i : Nat) (li v : Str)
    (hline : ls.get? i = some li)
    (hdir : orgDirectiveTitle (trimStr li) = some v)
    (hbefore : ∀ j l, j < i → ls.get? j = some l → orgLineTitle l = none) :
    orgTitleOfLines ls = some v := by
  induction ls generalizing i with
  | nil => simp at hline
  | cons a ls ih =>
    cases i with
    | zero =>
      have ha : a = li := by simpa using hline
      have hne : trimStr li ≠ [] := by
        intro h0
        rw [h0] at hdir
        have hnil : orgDirectiveTitle ([] : Str) = none := by decide
        rw [hnil] at hdir
        exact Option.noConfusion hdir
      rw [ha]
      simp only [orgTitleOfLines, orgLineTitle]
      rw [if_neg hne, hdir]
    | succ i' =>
      have h0 : orgLineTitle a = none := hbefore 0 a (Nat.succ_pos _) rfl
      simp only [orgTitleOfLines, h0]
      exact ih i' hline (fun j l hj hg => hbefore (j + 1) l (Nat.succ_lt_succ hj) hg)

/-- The image of an indented code block: the language defaults to `text` and
the highlighter receives no language tag. -/
lemma segOut_indented (hl : Str → Option Str → Str) (ts : List Str) :
    segOut hl (.block .indented ts)
      = [.htmlEv (str "<pre><code class=\"hl language-text\">" ++ hl ts.flatten none
          ++ str "</code></pre>")] := by
  have hx : str "<pre><code class=\"hl language-" ++ str "text" ++ str "\">"
      = str "<pre><code class=\"hl language-text\">" := by decide
  simp only [segOut, langOfKind, Option.getD_none]
  rw [← hx]

/-! ## The claims -/

/-- Claim C1: on every well-formed Markdown parser event stream, the rendering
loop of `convert_markdown_to_html` replaces each code-block-start/text/
code-block-end run by exactly one raw-HTML event of the shape
`<pre><code class="hl language-...">...</code></pre>` (the `segOut` image),
and emits no text event from inside a code block: the output is exactly the
plain events outside code blocks plus one `htmlEv` per block. -/
theorem C1_markdown_code_blocks_replaced (hl : Str → Option Str → Str)
    (segs : List Seg) (h : WFsegs segs = true) :
    transformEvents hl (flattenSegs segs) false none []
      = (segs.map (segOut hl)).flatten :=
  transform_flatten hl segs none [] h

theorem C1_witness :
    WFsegs [Seg.plain (.start .otherTag), Seg.block (.fenced (str "rust")) [str "let x = 1;\n"],
      Seg.plain (.stop .otherTag), Seg.plain (.text (str "after"))] = true
    ∧ transformEvents (fun c _ => c)
        (flattenSegs [Seg.plain (.start .otherTag),
          Seg.block (.fenced (str "rust")) [str "let x = 1;\n"],
          Seg.plain (.stop .otherTag), Seg.plain (.text (str "after"))]) false none []
      = [.start .otherTag,
         .htmlEv (str "<pre><code class=\"hl language-rust\">let x = 1;\n</code></pre>"),
         .stop .otherTag, .text (str "after")] := by
  refine ⟨by decide, ?_⟩
  rw [C1_markdown_code_blocks_replaced (fun c _ => c) _ (by decide)]
  decide

/-- Claim C2 fails on the code: for the Org document
`"* Head\n#+TITLE: My Doc\n"`, which contains a case-insensitive title
directive with non-empty value, `extract_title_from_org` returns the earlier
headline `"Head"` and not the directive value `"My Doc"` — the scan is
first-match line by line, so a headline on an earlier line beats the
directive. -/
theorem C2_counterexample :
    extract_title_from_org (str "* Head\n#+TITLE: My Doc\n") = some (str "Head")
    ∧ extract_title_from_org (str "* Head\n#+TITLE: My Doc\n") ≠ some (str "My Doc") :=
  ⟨by decide, by decide⟩

/-- Claim C2 (amended): the Org scan is first-match line by line with the
directive checked before the headline within each line; a `#+TITLE:` directive
with non-empty value therefore wins exactly when no earlier line already
yields a directive or headline title. -/
theorem C2_org_title_first_match (input : Str) (i : Nat) (li v : Str)
    (hline : (rustLines input).get? i = some li)
    (hdir : orgDirectiveTitle (trimStr li) = some v)
    (hbefore : ∀ j l, j < i → (rustLines input).get? j = some l → orgLineTitle l = none) :
    extract_title_from_org input = some v :=
  orgTitleOfLines_first (rustLines input) i li v hline hdir hbefore

theorem C2_witness :
    (rustLines (str "#+TITLE: My Doc\n* Ignored\n")).get? 0 = some (str "#+TITLE: My Doc")
    ∧ orgDirectiveTitle (trimStr (str "#+TITLE: My Doc")) = some (str "My Doc")
    ∧ extract_title_from_org (str "#+TITLE: My Doc\n* Ignored\n") = some (str "My Doc") := by
  refine ⟨by decide, by decide, ?_⟩
  exact C2_org_title_first_match (str "#+TITLE: My Doc\n* Ignored\n") 0
    (str "#+TITLE: My Doc") (str "My Doc") (by decide) (by decide)
    (fun j l hj _ => absurd hj (Nat.not_lt_zero j))

/-- Claim C3 fails on the code: `"Git Hub"` is resolved by none of the four
tiers — `resolve_theme` returns `none` for it (its lowercase form
`"git hub"` misses the alias table, and its normalized form `"github"` matches
no normalized registry key), whereas `"GitHub"` resolves via the alias tier. -/
theorem C3_counterexample :
    resolve_theme (some (str "Git Hub")) = none
    ∧ resolve_theme (some (str "GitHub")) = some (str "InspiredGitHub")
    ∧ resolve_theme (some (str "Git Hub")) ≠ resolve_theme (some (str "GitHub")) :=
  ⟨by decide, by decide, by decide⟩

/-- Claim C3 (amended): `"GitHub"` and `"github"` resolve via the alias tier
to `InspiredGitHub`; `"Git Hub"` fails all four tiers and `resolve_theme`
returns `none` for it, but the CSS-assembly fallback default is the same
`InspiredGitHub` theme, so all three names select the same theme object; and
every unresolvable name selects that default without error. -/
theorem C3_theme_resolution_amended :
    light_theme_key (some (str "GitHub")) = str "InspiredGitHub"
    ∧ light_theme_key (some (str "github")) = str "InspiredGitHub"
    ∧ light_theme_key (some (str "Git Hub")) = str "InspiredGitHub"
    ∧ ∀ n : Option Str, resolve_theme n = none →
        light_theme_key n = str "InspiredGitHub" := by
  refine ⟨by decide, by decide, by decide, ?_⟩
  intro n hn
  simp only [light_theme_key, hn, Option.getD_none]
  decide

theorem C3_witness :
    resolve_theme (some (str "Sepia Classic")) = none
    ∧ light_theme_key (some (str "Sepia Classic")) = str "InspiredGitHub" := by
  refine ⟨by decide, ?_⟩
  exact C3_theme_resolution_amended.2.2.2 (some (str "Sepia Classic")) (by decide)

/-- Claim C4 fails on the code: scoping `".a, .b { color: red; }"` under
`"html[data-theme='dark']"` is not byte-for-byte the claimed string — the
code trims each selector (dropping the space before the brace), emits the
brace as `{\n`, and terminates the rule with `}\n`. -/
theorem C4_counterexample :
    scope_syntect_css (str ".a, .b \x7b color: red; \x7d") (str "html[data-theme=\x27dark\x27]")
      ≠ str "html[data-theme=\x27dark\x27] .a, html[data-theme=\x27dark\x27] .b \x7b color: red; \x7d" := by
  decide

/-- Claim C4 (amended): the scoped output is exactly
`"html[data-theme='dark'] .a, html[data-theme='dark'] .b{\n color: red; }\n"`. -/
theorem C4_scope_css_exact :
    scope_syntect_css (str ".a, .b \x7b color: red; \x7d") (str "html[data-theme=\x27dark\x27]")
      = str "html[data-theme=\x27dark\x27] .a, html[data-theme=\x27dark\x27] .b\x7b\n color: red; \x7d\n" := by
  decide

/-- Claim C5: for every URL whose processed path ends in `.html` and passes
the traversal guard, the resolver strips the suffix and probes `<base>.md`
then `<base>.org` under the source root, in that order: a present `.md` file
is rendered as Markdown (even when the `.org` file also exists, which the
statement covers since it holds for every state of the `.org` entry); with no
`.md` a present `.org` is rendered as Org; with neither the response is 404
Not Found. -/
theorem C5_html_resolution (fs : Str → Option Str) (renderMd renderOrg : Str → Str)
    (mimeOf : Str → Str) (url : Str)
    (hT : hasTraversal (processPath url) = false)
    (hH : (str ".html").isSuffixOf (processPath url) = true) :
    (∀ c, fs (htmlBase (processPath url) ++ str ".md") = some c →
        handle_request fs renderMd renderOrg mimeOf url
          = .ok (str "text/html; charset=utf-8") (renderMd c))
    ∧ (fs (htmlBase (processPath url) ++ str ".md") = none →
        ∀ c, fs (htmlBase (processPath url) ++ str ".org") = some c →
          handle_request fs renderMd renderOrg mimeOf url
            = .ok (str "text/html; charset=utf-8") (renderOrg c))
    ∧ (fs (htmlBase (processPath url) ++ str ".md") = none →
        fs (htmlBase (processPath url) ++ str ".org") = none →
        handle_request fs renderMd renderOrg mimeOf url = .notFound) := by
  refine ⟨fun c hc => ?_, fun hmd c hc => ?_, fun hmd horg => ?_⟩
  · simp [handle_request, hT, hH, hc]
  · simp [handle_request, hT, hH, hmd, hc]
  · simp [handle_request, hT, hH, hmd, horg]

theorem C5_witness :
    hasTraversal (processPath (str "/foo.html")) = false
    ∧ (str ".html").isSuffixOf (processPath (str "/foo.html")) = true
    ∧ handle_request
        (fun k => if k = str "foo.md" then some (str "MD")
          else if k = str "foo.org" then some (str "ORG") else none)
        id id (fun _ => str "application/octet-stream") (str "/foo.html")
      = .ok (str "text/html; charset=utf-8") (str "MD") := by
  refine ⟨by decide, by decide, ?_⟩
  exact (C5_html_resolution
    (fun k => if k = str "foo.md" then some (str "MD")
      else if k = str "foo.org" then some (str "ORG") else none)
    id id (fun _ => str "application/octet-stream") (str "/foo.html")
    (by decide) (by decide)).1 (str "MD") (by decide)

/-- Claim C6: every request whose processed path contains a `..` segment or a
backslash character is answered 400 Bad Request; the conclusion holds for
every filesystem state and renderer, so the resolver's answer is independent
of the filesystem — it is never consulted on such paths. -/
theorem C6_traversal_rejected (url : Str)
    (hT : hasTraversal (processPath url) = true) :
    ∀ (fs : Str → Option Str) (renderMd renderOrg : Str → Str) (mimeOf : Str → Str),
      handle_request fs renderMd renderOrg mimeOf url = .badRequest := by
  intro fs renderMd renderOrg mimeOf
  simp [handle_request, hT]

theorem C6_witness :
    hasTraversal (processPath (str "/../etc/passwd")) = true
    ∧ handle_request (fun _ => none) id id (fun _ => []) (str "/../etc/passwd")
        = .badRequest := by
  refine ⟨by decide, ?_⟩
  exact C6_traversal_rejected (str "/../etc/passwd") (by decide) (fun _ => none) id id
    (fun _ => [])

/-- Claim C7 fails as stated: render output is not a pure function of
(raw text, theme config) alone — two renders with identical text, theme
config, parser, serializer and highlighter but different states of the
`theme/head.html` file (read by `read_head_snippet` during `wrap_html_page`)
produce different bytes. -/
theorem C7_counterexample :
    convert_markdown_to_html (fun _ => []) (fun _ => []) (fun _ _ => []) []
        ⟨none, none⟩ (fun _ => []) (some (str "EXTRA"))
      ≠ convert_markdown_to_html (fun _ => []) (fun _ => []) (fun _ _ => []) []
        ⟨none, none⟩ (fun _ => []) none := by
  intro heq
  simp only [convert_markdown_to_html] at heq
  rw [wrap_html_page_decomp, wrap_html_page_decomp] at heq
  simp only [Option.getD_some, Option.getD_none, List.append_assoc, List.nil_append] at heq
  have h1 := List.append_cancel_left heq
  have h2 := congrArg List.length h1
  rw [List.length_append] at h2
  have h5 : (str "EXTRA").length = 5 := rfl
  rw [h5] at h2
  omega

/-- Claim C7 (amended): render output is a pure function of the raw text, the
theme configuration and the `theme/head.html` state: for fixed parser,
serializer, highlighter, input and theme the page is
`pre ++ headSnippet ++ post` with `pre` and `post` independent of the snippet,
so renders with identical inputs including identical snippet state are
byte-identical, and the snippet is the only further input. -/
theorem C7_render_pure_amended (parse : Str → List MdEvent)
    (pushHtml : List MdEvent → Str) (hl : Str → Option Str → Str) (input : Str)
    (cfg : ThemeConfig) (themeCss : Str → Str) :
    ∃ preS postS : Str, ∀ headSnippet : Option Str,
      convert_markdown_to_html parse pushHtml hl input cfg themeCss headSnippet
        = preS ++ headSnippet.getD [] ++ postS :=
  ⟨wrapBeforeHead (extract_title_from_markdown_events (parse input)) cfg themeCss,
   wrapAfterHead (pushHtml (transformEvents hl (parse input) false none [])),
   fun h => wrap_html_page_decomp _ _ _ _ h⟩

/-- Claim C8: in the emitted stylesheet of every rendered page, the
syntax-highlighting CSS scoped under `html[data-theme='auto']` occurs only
inside the two `prefers-color-scheme` media-query blocks: the number of
occurrences of the auto scope selector in the whole `<style>` content equals
the number of its occurrences inside those two blocks, and each block is by
construction a `@media (prefers-color-scheme: ...)` wrapper around the scoped
CSS. -/
theorem C8_auto_css_only_in_media (cfg : ThemeConfig) (themeCss : Str → Str)
    (hL : countOccur scopeAutoSel (syn_light_scoped cfg themeCss) = 0)
    (hD : countOccur scopeAutoSel (syn_dark_scoped cfg themeCss) = 0) :
    countOccur scopeAutoSel (style_content cfg themeCss)
      = countOccur scopeAutoSel (auto_light_block cfg themeCss)
        + countOccur scopeAutoSel (auto_dark_block cfg themeCss)
    ∧ auto_light_block cfg themeCss
        = str "@media (prefers-color-scheme: light) \x7b\n"
            ++ scope_syntect_css (themeCss (light_theme_key cfg.light)) scopeAutoSel
            ++ str "\n\x7d"
    ∧ auto_dark_block cfg themeCss
        = str "@media (prefers-color-scheme: dark) \x7b\n"
            ++ scope_syntect_css (themeCss (dark_theme_key cfg.dark)) scopeAutoSel
            ++ str "\n\x7d" := by
  refine ⟨?_, rfl, rfl⟩
  have hne : scopeAutoSel ≠ [] := by decide
  have hnl : '\n' ∉ scopeAutoSel := by decide
  have hshape : style_content cfg themeCss
      = '\n' :: (default_css ++ '\n' :: (syn_light_scoped cfg themeCss
          ++ '\n' :: (syn_dark_scoped cfg themeCss
          ++ '\n' :: (auto_light_block cfg themeCss
          ++ '\n' :: (auto_dark_block cfg themeCss
          ++ '\n' :: (wrap_overrides ++ '\n' :: ([] : Str))))))) := by
    simp only [style_content, List.append_assoc]
    rfl
  rw [hshape]
  rw [countOccur_newline_cons scopeAutoSel hne hnl,
      countOccur_append_newline scopeAutoSel hne hnl,
      countOccur_append_newline scopeAutoSel hne hnl,
      countOccur_append_newline scopeAutoSel hne hnl,
      countOccur_append_newline scopeAutoSel hne hnl,
      countOccur_append_newline scopeAutoSel hne hnl,
      countOccur_append_newline scopeAutoSel hne hnl]
  have hcss : countOccur scopeAutoSel default_css = 0 := by
    show countOccur scopeAutoSel (joinNl default_css_lines) = 0
    rw [countOccur_joinNl scopeAutoSel hne hnl]
    decide
  have hov : countOccur scopeAutoSel wrap_overrides = 0 := by decide
  have h0 : countOccur scopeAutoSel ([] : Str) = 0 := rfl
  rw [hcss, hov, hL, hD, h0]
  omega

theorem C8_witness :
    countOccur scopeAutoSel (syn_light_scoped ⟨none, none⟩ (fun _ => [])) = 0
    ∧ countOccur scopeAutoSel (syn_dark_scoped ⟨none, none⟩ (fun _ => [])) = 0
    ∧ countOccur scopeAutoSel (style_content ⟨none, none⟩ (fun _ => []))
        = countOccur scopeAutoSel (auto_light_block ⟨none, none⟩ (fun _ => []))
          + countOccur scopeAutoSel (auto_dark_block ⟨none, none⟩ (fun _ => [])) := by
  refine ⟨by decide, by decide, ?_⟩
  exact (C8_auto_css_only_in_media ⟨none, none⟩ (fun _ => []) (by decide) (by decide)).1

/-- Claim C9: on every well-formed parser stream, Markdown title extraction
returns the trimmed inline text (plain text and inline-code spans, space
joined) of the first heading whose accumulated text is non-empty after
trimming; an empty heading is skipped and extraction continues; the result is
`none` when no heading exists anywhere.  The witness instantiates the stream
pulldown-cmark produces for `"# Hello\n\nbody"` and obtains `"Hello"`. -/
theorem C9_md_title_first_nonempty_heading (items : List MdItem)
    (h : WFitems items = true) :
    extract_title_from_markdown_events (flattenItems items) = specTitleItems items :=
  extract_items items [] h rfl

theorem C9_witness :
    WFitems [MdItem.hblock [.text (str "Hello")], MdItem.misc (.start .otherTag),
      MdItem.misc (.text (str "body")), MdItem.misc (.stop .otherTag)] = true
    ∧ extract_title_from_markdown_events
        (flattenItems [MdItem.hblock [.text (str "Hello")], MdItem.misc (.start .otherTag),
          MdItem.misc (.text (str "body")), MdItem.misc (.stop .otherTag)])
      = some (str "Hello") := by
  refine ⟨by decide, ?_⟩
  rw [C9_md_title_first_nonempty_heading _ (by decide)]
  decide

/-- Claim C10: indented (non-fenced) code blocks are intercepted like fenced
ones: the block's text is passed to the highlighter with no language tag and
the block becomes exactly one `<pre><code class="hl language-text">` fragment
in the output stream. -/
theorem C10_indented_blocks_highlighted (hl : Str → Option Str → Str)
    (pre post : List Seg) (ts : List Str)
    (h1 : WFsegs pre = true) (h2 : WFsegs post = true) :
    transformEvents hl (flattenSegs (pre ++ Seg.block .indented ts :: post)) false none []
      = (pre.map (segOut hl)).flatten
        ++ .htmlEv (str "<pre><code class=\"hl language-text\">" ++ hl ts.flatten none
            ++ str "</code></pre>") :: (post.map (segOut hl)).flatten := by
  have hw : WFsegs (pre ++ Seg.block .indented ts :: post) = true := by
    rw [WFsegs, List.all_append, List.all_cons]
    rw [WFsegs] at h1 h2
    simp [h1, h2, WFseg]
  rw [transform_flatten hl _ none [] hw]
  rw [List.map_append, List.map_cons, List.flatten_append, List.flatten_cons,
    segOut_indented]
  simp

theorem C10_witness :
    WFsegs [Seg.plain (.start .otherTag)] = true
    ∧ WFsegs [Seg.plain (.stop .otherTag)] = true
    ∧ transformEvents (fun c _ => c)
        (flattenSegs ([Seg.plain (.start .otherTag)]
          ++ Seg.block .indented [str "x = 1\n"] :: [Seg.plain (.stop .otherTag)]))
        false none []
      = [.start .otherTag,
         .htmlEv (str "<pre><code class=\"hl language-text\">x = 1\n</code></pre>"),
         .stop .otherTag] := by
  refine ⟨by decide, by decide, ?_⟩
  rw [C10_indented_blocks_highlighted (fun c _ => c) [Seg.plain (.start .otherTag)]
    [Seg.plain (.stop .otherTag)] [str "x = 1\n"] (by decide) (by decide)]
  decide
